import Mathlib

/-!
Verification of the codex-warp-gui session server (`server/src/main.rs`).

The Rust code is shallowly embedded: each relevant Rust function is
translated into an executable Lean definition over a `Json` model of
`serde_json::Value`.  Machine integers (`u64`, `i64`, `u8`, `usize`) are
modelled as `Nat`/`Int` with explicit wrapping / saturation at the points
where the Rust code wraps or saturates.  JSON numbers are modelled as
integers: every code path under verification inspects numbers only through
`as_i64` / `as_u64` / string parsing, all of which reject non-integral
values.
-/

namespace CodexWarp

/-- Model of `serde_json::Value`.  Objects are association lists in
insertion order; `get` looks a key up from the front, matching map lookup. -/
inductive Json where
  | null : Json
  | bool (b : Bool) : Json
  | num (n : Int) : Json
  | str (s : String) : Json
  | arr (elems : List Json) : Json
  | obj (fields : List (String × Json)) : Json
deriving Repr

/-- Key lookup in an object's field list (first occurrence wins). -/
def lookupField : List (String × Json) → String → Option Json
  | [], _ => none
  | (k, v) :: rest, key => if k = key then some v else lookupField rest key

/-- Model of `serde_json::Value::get` for a string key: defined on objects,
`None` on every other variant. -/
def Json.get : Json → String → Option Json
  | .obj fields, key => lookupField fields key
  | _, _ => none

/-- Model of `Value::as_str`. -/
def Json.asStr : Json → Option String
  | .str s => some s
  | _ => none

/-- The `u64` modulus. -/
def u64Mod : Nat := 2 ^ 64

/-- The `i64` bound. -/
def i64Bound : Int := 2 ^ 63

/-- Model of `serde_json::Number::as_u64`: an integral JSON number in
`[0, 2^64)`. -/
def Json.asU64 : Json → Option Nat
  | .num n => if 0 ≤ n ∧ n < (u64Mod : Int) then some n.toNat else none
  | _ => none

/-- Model of `Number::as_i64`: an integral JSON number in `[-2^63, 2^63)`. -/
def Json.asI64 : Json → Option Int
  | .num n => if -i64Bound ≤ n ∧ n < i64Bound then some n else none
  | _ => none

/-- Model of serde's map `insert`: replace the value in place when the key
is present, append a new entry otherwise. -/
def insertField : List (String × Json) → String → Json → List (String × Json)
  | [], key, v => [(key, v)]
  | (k, w) :: rest, key, v =>
      if k = key then (key, v) :: rest else (k, w) :: insertField rest key v

/-- An SSE `codex_event` payload (Rust struct `UiEvent`). -/
structure UiEvent where
  session_id : String
  ts_ms : Nat
  stream : String
  raw : String
  json : Option Json

/-- Effects of one successful `persist_and_emit_stdout` call: the JSON
object written as one newline-terminated event-log line, and the broadcast
`codex_event` payload. -/
structure PersistEmitResult where
  appended : Json
  emitted : UiEvent

/-- Translation of `persist_and_emit_stdout` (main.rs:1920).  Returns
`none` when the call returns without writing or broadcasting anything
(the three suppressed notification methods), and otherwise the pair of the
persisted line and the broadcast event.  `ts_ms` stands for the `now_ms()`
ingestion timestamp read inside the call. -/
def persist_and_emit_stdout (session_id raw : String) (json : Json) (ts_ms : Nat) :
    Option PersistEmitResult :=
  let proceed : Bool :=
    match (json.get "method").bind Json.asStr with
    | some method =>
        ¬(method = "thread/tokenUsage/updated" ∨
          method = "account/rateLimits/updated" ∨
          method = "item/reasoning/summaryPartAdded")
    | none => true
  if proceed then
    let persisted : Json :=
      match json with
      | .obj fields => .obj (insertField fields "_ts_ms" (.num (ts_ms : Int)))
      | other => other
    some { appended := persisted
           emitted := { session_id := session_id, ts_ms := ts_ms,
                        stream := "stdout", raw := raw, json := some json } }
  else
    none

/-! Usage meter: `extract_token_usage_snapshot` (main.rs:2024) and the
metrics handling of the drain loop in `run_turn_via_app_server`
(main.rs:2601-2624, 2657-2686) together with `persist_context_metrics`
(main.rs:2069). -/

/-- Model of Rust `str::parse::<u64>`: an optional leading plus sign, one
or more ASCII digits, value below `2^64`. -/
def parseU64 (s : String) : Option Nat :=
  let digits : List Char :=
    match s.data with
    | '+' :: rest => rest
    | cs => cs
  if digits ≠ [] ∧ digits.all Char.isDigit then
    let v := digits.foldl (fun acc c => acc * 10 + (c.toNat - '0'.toNat)) 0
    if v < u64Mod then some v else none
  else none

/-- Translation of `json_u64` (main.rs:2016): a `u64` from either a JSON
number or its decimal string form. -/
def json_u64 : Json → Option Nat
  | .num n => if 0 ≤ n ∧ n < (u64Mod : Int) then some n.toNat else none
  | .str s => parseU64 s
  | _ => none

/-- Wrapping `u64` addition (release-mode `+`). -/
def u64AddWrap (a b : Nat) : Nat := (a + b) % u64Mod

/-- `u64::saturating_mul(self, 100)`. -/
def u64SatMul100 (a : Nat) : Nat := min (a * 100) (u64Mod - 1)

/-- Rust struct `TokenUsageSnapshot` (main.rs:2005). -/
structure TokenUsageSnapshot where
  window : Nat
  total_tokens : Nat
  input_tokens : Nat
  output_tokens : Nat
  reasoning_output_tokens : Nat
  cached_input_tokens : Nat
  pct_left : Nat
deriving Repr, DecidableEq

/-- The `modelContextWindow` lookup of `extract_token_usage_snapshot`:
`params.modelContextWindow` or `params.tokenUsage.modelContextWindow`,
defaulting to 0. -/
def model_context_window (params usage : Json) : Nat :=
  (((params.get "modelContextWindow").bind json_u64).orElse
    (fun _ => (usage.get "modelContextWindow").bind json_u64)).getD 0

/-- The repeated pattern `last.get(key).and_then(json_u64).unwrap_or(0)`. -/
def tokenField (last_ : Json) (key : String) : Nat :=
  ((last_.get key).bind json_u64).getD 0

/-- Translation of `extract_token_usage_snapshot` (main.rs:2024). -/
def extract_token_usage_snapshot (msg : Json) : Option TokenUsageSnapshot :=
  if ((msg.get "method").bind Json.asStr) ≠ some "thread/tokenUsage/updated" then none
  else
    match msg.get "params" with
    | none => none
    | some params =>
      match params.get "tokenUsage" with
      | none => none
      | some usage =>
        let window := model_context_window params usage
        if window = 0 then none
        else
          match (usage.get "last").orElse (fun _ => usage.get "total") with
          | none => none
          | some last_ =>
            let input_tokens := tokenField last_ "inputTokens"
            let cached_input_tokens := tokenField last_ "cachedInputTokens"
            let output_tokens := tokenField last_ "outputTokens"
            let reasoning_output_tokens := tokenField last_ "reasoningOutputTokens"
            let sum := u64AddWrap (u64AddWrap input_tokens output_tokens) reasoning_output_tokens
            let total_tokens :=
              (((last_.get "totalTokens").bind json_u64).orElse
                (fun _ => if 0 < sum then some sum else none)).getD 0
            let remaining := window - total_tokens
            let pct_left := min (u64AddWrap (u64SatMul100 remaining) (window / 2) / window) 100
            some { window := window, total_tokens := total_tokens,
                   input_tokens := input_tokens, output_tokens := output_tokens,
                   reasoning_output_tokens := reasoning_output_tokens,
                   cached_input_tokens := cached_input_tokens, pct_left := pct_left }

/-- An SSE `codex_metrics` payload (Rust struct `ContextMetrics`). -/
structure ContextMetrics where
  session_id : String
  ts_ms : Nat
  context_left_pct : Nat
  context_used_tokens : Nat
  context_window : Nat
deriving Repr, DecidableEq

/-- State of the drain loop restricted to the usage-meter pipeline:
the three mutable locals of `run_turn_via_app_server` (main.rs:2582-2584),
the context triple stored in `meta.json` (written through
`persist_context_metrics`, main.rs:2069), and the `codex_metrics` events
broadcast so far. -/
structure MetricsLoopState where
  last_metrics_emit_ms : Nat
  last_metrics_emitted_pct : Option Nat
  last_usage_snapshot : Option TokenUsageSnapshot
  meta_context : Option (Nat × Nat × Nat)
  emitted : List ContextMetrics
deriving Repr, DecidableEq

/-- Drain-loop entry state: `last_metrics_emit_ms = 0`, no emitted pct, no
snapshot; `meta0` is the context triple already in `meta.json`. -/
def metrics_loop_init (meta0 : Option (Nat × Nat × Nat)) : MetricsLoopState :=
  { last_metrics_emit_ms := 0, last_metrics_emitted_pct := none,
    last_usage_snapshot := none, meta_context := meta0, emitted := [] }

/-- Translation of the metrics handling for one received line in the drain
loop (main.rs:2597-2624); `now` is the `now_ms()` value read inside.
Event persistence and agent-text capture are modelled separately. -/
def metrics_step (sid : String) (st : MetricsLoopState) (json : Json) (now : Nat) :
    MetricsLoopState :=
  match (json.get "method").bind Json.asStr with
  | none => st
  | some method =>
    if method = "thread/tokenUsage/updated" then
      match extract_token_usage_snapshot json with
      | none => st
      | some snapshot =>
        let st1 := { st with last_usage_snapshot := some snapshot }
        if st1.last_metrics_emitted_pct ≠ some snapshot.pct_left then
          if st1.last_metrics_emit_ms = 0 ∨ 5000 ≤ now - st1.last_metrics_emit_ms then
            { st1 with
              meta_context := some (snapshot.window, snapshot.total_tokens, snapshot.pct_left),
              emitted := st1.emitted ++
                [{ session_id := sid, ts_ms := now, context_left_pct := snapshot.pct_left,
                   context_used_tokens := snapshot.total_tokens,
                   context_window := snapshot.window }],
              last_metrics_emit_ms := now,
              last_metrics_emitted_pct := some snapshot.pct_left }
          else st1
        else st1
    else st

/-- Translation of the after-loop snapshot flush (main.rs:2657-2686): the
last observed snapshot, when present, is persisted to the metadata triple
and broadcast once more (the usage-ledger append is elided). -/
def metrics_finalize (sid : String) (st : MetricsLoopState) (now : Nat) : MetricsLoopState :=
  match st.last_usage_snapshot with
  | none => st
  | some snapshot =>
      { st with
        meta_context := some (snapshot.window, snapshot.total_tokens, snapshot.pct_left),
        emitted := st.emitted ++
          [{ session_id := sid, ts_ms := now, context_left_pct := snapshot.pct_left,
             context_used_tokens := snapshot.total_tokens,
             context_window := snapshot.window }] }

/-- A concrete `thread/tokenUsage/updated` notification carrying a context
window and a `last.totalTokens` count. -/
def token_usage_msg (window total : Nat) : Json :=
  .obj [("method", .str "thread/tokenUsage/updated"),
        ("params", .obj [("modelContextWindow", .num (window : Int)),
                         ("tokenUsage", .obj [("last", .obj [("totalTokens", .num (total : Int))])])])]

/-! Drain-loop termination on `turn/completed` (main.rs:2629-2639) and the
final `codex_run_finished` broadcast (main.rs:2642-2655, 2711-2720). -/

/-- The raw `params.turn.status` string of a notification, when present. -/
def turn_completed_status (json : Json) : Option String :=
  (((json.get "params").bind (fun v => v.get "turn")).bind
    (fun v => v.get "status")).bind Json.asStr

/-- Translation of the `turn/completed` arm of the drain loop
(main.rs:2630-2637): `status` is `unwrap_or_default`-ed to the empty
string; `success` and `exit_code` are derived from it. -/
def run_finished_on_turn_completed (json : Json) : Bool × Option Int :=
  let status := (turn_completed_status json).getD ""
  let success := status == "completed"
  let exit_code : Option Int :=
    if success then none else if status == "interrupted" then none else some (1 : Int)
  (success, exit_code)

/-- Translation of the post-loop cancellation adjustment (main.rs:2642-2655):
when `cancelled` the broadcast fields become `success=false`,
`exit_code=None`; otherwise the loop's values pass through to
`broadcast_run_finished` (main.rs:2711). -/
def final_run_finished (cancelled : Bool) (success : Bool) (exit_code : Option Int) :
    Bool × Option Int :=
  if cancelled then (false, none) else (success, exit_code)

/-! Response correlation: `jsonrpc_id_matches` (main.rs:1909). -/

/-- Translation of `jsonrpc_id_matches`: the response `id` field matches
the expected `i64` either as a JSON number (`as_i64`) or as the decimal
string form. -/
def jsonrpc_id_matches (value : Json) (expected : Int) : Bool :=
  match value.get "id" with
  | none => false
  | some id =>
    match id with
    | .num n => Json.asI64 (.num n) == some expected
    | .str s => s == toString expected
    | _ => false

/-! SSE streaming: `stream_session` (main.rs:1743) tail handling and the
native part of the backlog, and the native-archive visibility logic of
`list_sessions` (main.rs:1001-1039) and `native_session_meta`
(main.rs:915). -/

/-- Generic association-list lookup (first occurrence wins), the model of
`HashMap::get` for string keys. -/
def lookupAssoc {α : Type} : List (String × α) → String → Option α
  | [], _ => none
  | (k, v) :: rest, key => if k = key then some v else lookupAssoc rest key

/-- Rust `Ord::clamp`. -/
def rust_clamp (n lo hi : Nat) : Nat := if n < lo then lo else if hi < n then hi else n

/-- Translation of the `tail` query handling of `stream_session`
(main.rs:1761-1765). -/
def effective_tail (tail : Option Nat) : Nat :=
  match tail with
  | some 0 => 0
  | some n => rust_clamp n 50 50000
  | none => 4000

/-- Translation of `read_tail_lines` (main.rs:445) on a file modelled as
its list of lines: at most the last `max_lines` lines, in order ([] when
`max_lines = 0`). -/
def read_tail_lines (lines : List String) (max_lines : Nat) : List String :=
  if max_lines = 0 then [] else lines.drop (lines.length - max_lines)

/-- Translation of the backlog truncation of `stream_session`
(main.rs:1849-1851): keep the last `tail` entries when the backlog is
longer and `tail > 0`. -/
def backlog_truncate {α : Type} (backlog : List α) (tail : Nat) : List α :=
  if 0 < tail ∧ tail < backlog.length then backlog.drop (backlog.length - tail) else backlog

/-- The native-rollout contribution to the `stream_session` backlog
(main.rs:1772-1802), on an archive modelled as an association of session
ids to rollout files (each a list of raw lines): when the effective tail
is positive and the session id has rollout files, the tail lines of every
rollout file, in file order.  No `exec`-origin filter is applied here.
Timestamp decoration and the (timestamp, sequence) sort are elided; the
claims below concern only which raw lines contribute. -/
def stream_native_backlog (rollouts : List (String × List (List String)))
    (sid : String) (tail : Option Nat) : List String :=
  let t := effective_tail tail
  if 0 < t then
    match lookupAssoc rollouts sid with
    | some paths => paths.foldl (fun acc f => acc ++ read_tail_lines f t) []
    | none => []
  else []

/-- Fields of the Rust struct `NativeDerived` (main.rs:166) relevant to
visibility: derived per-thread metadata extracted from the latest rollout. -/
structure NativeDerived where
  cwd : Option String
  originator : Option String
  source : Option String
  last_prompt : Option String
  latest_mtime_ms : Nat
deriving Repr, DecidableEq

/-- Rust `char::is_whitespace`: the Unicode White_Space property —
U+0009–U+000D, U+0020, U+0085, U+00A0, U+1680, U+2000–U+200A, U+2028,
U+2029, U+202F, U+205F, U+3000. -/
def rust_char_is_whitespace (c : Char) : Bool :=
  decide ((0x09 ≤ c.toNat ∧ c.toNat ≤ 0x0D) ∨ c.toNat = 0x20 ∨ c.toNat = 0x85 ∨
    c.toNat = 0xA0 ∨ c.toNat = 0x1680 ∨ (0x2000 ≤ c.toNat ∧ c.toNat ≤ 0x200A) ∨
    c.toNat = 0x2028 ∨ c.toNat = 0x2029 ∨ c.toNat = 0x202F ∨ c.toNat = 0x205F ∨
    c.toNat = 0x3000)

/-- Rust `str::trim` on character lists (Unicode White_Space trim on both
ends). -/
def rust_trim_chars (cs : List Char) : List Char :=
  ((cs.dropWhile rust_char_is_whitespace).reverse.dropWhile rust_char_is_whitespace).reverse

/-- Rust `str::trim` on strings. -/
def rust_trim (s : String) : String := String.mk (rust_trim_chars s.data)

/-- Translation of `safe_title` (main.rs:315). -/
def safe_title (prompt : String) : String :=
  let trimmed := rust_trim prompt
  if trimmed = "" then "New session"
  else
    let s := String.mk (trimmed.data.map (fun c => if c = '\n' then ' ' else c))
    if s.data.length ≤ 60 then s
    else String.mk (s.data.take 60 ++ ['…'])

/-- `str::starts_with` on character lists. -/
def list_starts_with : List Char → List Char → Bool
  | _, [] => true
  | [], _ :: _ => false
  | c :: cs, p :: ps => c = p && list_starts_with cs ps

/-- `str::contains` (substring search) on character lists. -/
def list_contains_sub : List Char → List Char → Bool
  | [], pat => list_starts_with [] pat
  | c :: rest, pat => list_starts_with (c :: rest) pat || list_contains_sub rest pat

/-- Translation of `should_show_rollout_user_text` (main.rs:765). -/
def should_show_rollout_user_text (text : String) : Bool :=
  let t := rust_trim text
  if t = "" then false
  else if list_starts_with t.data ("# AGENTS.md".data) then false
  else if list_starts_with t.data ("<environment_context".data) then false
  else if list_contains_sub t.data ("<INSTRUCTIONS>".data) then false
  else true

/-- The title selection shared by `list_sessions` (main.rs:1029-1035) and
`native_session_meta` (main.rs:944-950): the user-assigned thread title,
else the last prompt when it passes the visibility filter. -/
def native_title (titles : List (String × String)) (sid : String) (d : NativeDerived) :
    Option String :=
  (lookupAssoc titles sid).orElse (fun _ =>
    match d.last_prompt with
    | some t => if should_show_rollout_user_text t then some (safe_title t) else none
    | none => none)

/-- The session ids admitted by the native branch of `list_sessions`
(main.rs:1001-1039): skip empty path lists, `exec`-origin threads, and
threads with no title; `derived` stands for `get_or_compute_native_derived`.
The metadata fields built for admitted ids (timestamps from file mtimes)
are elided — the claims concern which ids appear. -/
def native_list_visible (rollouts : List (String × List (List String)))
    (derived : String → NativeDerived) (titles : List (String × String)) : List String :=
  rollouts.foldl (fun acc kv =>
    if kv.2.isEmpty then acc
    else
      let d := derived kv.1
      if d.source = some "exec" ∨ d.originator = some "codex_exec" then acc
      else
        match native_title titles kv.1 d with
        | none => acc
        | some _ => acc ++ [kv.1]) []

/-- Translation of the visibility skeleton of `native_session_meta`
(main.rs:915-967): `none` when the session id has no rollout files, when
the thread is `exec`-origin, or when no title can be derived; otherwise
the (title, cwd) pair used to build the returned metadata. -/
def native_session_meta (rollouts : List (String × List (List String)))
    (derived : String → NativeDerived) (titles : List (String × String)) (sid : String) :
    Option (String × Option String) :=
  match lookupAssoc rollouts sid with
  | none => none
  | some paths =>
    if paths.isEmpty then none
    else
      let d := derived sid
      if d.source = some "exec" ∨ d.originator = some "codex_exec" then none
      else
        match native_title titles sid d with
        | none => none
        | some title => some (title, d.cwd)

/-! Stop endpoint: `stop_session` (main.rs:1381). -/

/-- Session status (Rust enum `SessionStatus`). -/
inductive SessionStatus where
  | running : SessionStatus
  | done : SessionStatus
  | error : SessionStatus
deriving Repr, DecidableEq

/-- A run handle (Rust struct `RunHandle`, main.rs:137): whether the
`cancel` sender is still present, and the recorded child pid. -/
structure RunHandle where
  cancel_present : Bool
  pid : Option Nat
deriving Repr, DecidableEq

/-- Remove a key from an association list (model of `HashMap::remove`). -/
def removeAssoc {α : Type} : List (String × α) → String → List (String × α)
  | [], _ => []
  | (k, v) :: rest, key =>
      if k = key then removeAssoc rest key else (k, v) :: removeAssoc rest key

/-- Replace the value stored under a key. -/
def setAssoc {α : Type} : List (String × α) → String → α → List (String × α)
  | [], _, _ => []
  | (k, v) :: rest, key, w =>
      if k = key then (key, w) :: rest else (k, v) :: setAssoc rest key w

/-- Observable outcome of one `stop_session` call. -/
structure StopResult where
  status_code : Nat
  runs : List (String × RunHandle)
  meta_status : Option SessionStatus
  sigint_pid : Option Nat
  finished_broadcast : Option (Bool × Option Int)
deriving Repr, DecidableEq

/-- Translation of `stop_session` (main.rs:1381-1441).  `runs` is the run
registry, `meta_status` the status stored in the session's `meta.json`
(`none` when no metadata file exists); `send_fails` tells whether
`cancel.send(())` returns `Err` (the runner's receiver was dropped).  The
handler takes the `cancel` sender out of the handle, signals the recorded
pid, and — only when the receiver was dropped — removes the handle, marks
the metadata errored, and synthesizes a `codex_run_finished` with
`success=false` and no exit code.  Every path answers 204. -/
def stop_session (runs : List (String × RunHandle)) (sid : String) (send_fails : Bool)
    (meta_status : Option SessionStatus) : StopResult :=
  match lookupAssoc runs sid with
  | none =>
      { status_code := 204, runs := runs, meta_status := meta_status,
        sigint_pid := none, finished_broadcast := none }
  | some handle =>
      let runs1 := setAssoc runs sid { handle with cancel_present := false }
      let receiver_dropped := handle.cancel_present && send_fails
      if receiver_dropped then
        { status_code := 204, runs := removeAssoc runs1 sid,
          meta_status := meta_status.map (fun _ => SessionStatus.error),
          sigint_pid := handle.pid,
          finished_broadcast := some (false, none) }
      else
        { status_code := 204, runs := runs1, meta_status := meta_status,
          sigint_pid := handle.pid, finished_broadcast := none }

/-! Session creation: the `session_id` canonicalization of `start_session`
(main.rs:1094-1099), `Uuid::parse_str(raw.trim()).to_string()`. -/

/-- Value of a hexadecimal digit, case-insensitive. -/
def hexVal (c : Char) : Option Nat :=
  if '0' ≤ c ∧ c ≤ '9' then some (c.toNat - '0'.toNat)
  else if 'a' ≤ c ∧ c ≤ 'f' then some (10 + (c.toNat - 'a'.toNat))
  else if 'A' ≤ c ∧ c ≤ 'F' then some (10 + (c.toNat - 'A'.toNat))
  else none

/-- Big-endian hex-digit run to a natural number; `none` on any non-hex
character. -/
def parseHexDigits (cs : List Char) : Option Nat :=
  cs.foldl (fun acc c =>
    match acc, hexVal c with
    | some a, some d => some (a * 16 + d)
    | _, _ => none) (some 0)

/-- Modelled from the uuid crate: the hyphenated 8-4-4-4-12 form, hex
digits case-insensitive. -/
def uuid_parse_hyphenated (cs : List Char) : Option Nat :=
  if cs.length = 36 ∧ cs.get? 8 = some '-' ∧ cs.get? 13 = some '-' ∧
      cs.get? 18 = some '-' ∧ cs.get? 23 = some '-' then
    parseHexDigits (cs.take 8 ++ (cs.drop 9).take 4 ++ (cs.drop 14).take 4 ++
      (cs.drop 19).take 4 ++ cs.drop 24)
  else none

/-- Modelled from the uuid crate (`Uuid::parse_str`): accepts the
`urn:uuid:` form, the braced form, the simple 32-hex-digit form and the
hyphenated form; the parsed value is the 128-bit integer. -/
def uuid_parse (s : String) : Option Nat :=
  let cs := s.data
  if list_starts_with cs ("urn:uuid:".data) then uuid_parse_hyphenated (cs.drop 9)
  else if cs.length = 38 ∧ cs.get? 0 = some (Char.ofNat 123) ∧
      cs.get? 37 = some (Char.ofNat 125) then
    uuid_parse_hyphenated ((cs.drop 1).take 36)
  else if cs.length = 32 then parseHexDigits cs
  else uuid_parse_hyphenated cs

/-- Lowercase hex digit for a value below 16. -/
def toLowerHexDigit (n : Nat) : Char :=
  if n < 10 then Char.ofNat ('0'.toNat + n) else Char.ofNat ('a'.toNat + (n - 10))

/-- Big-endian lowercase hex rendering at a fixed width. -/
def natToHexChars (v width : Nat) : List Char :=
  (List.range width).map (fun i => toLowerHexDigit (v / 16 ^ (width - 1 - i) % 16))

/-- Modelled from the uuid crate (`Uuid::to_string` / `Display`): the
canonical lowercase hyphenated rendering. -/
def uuid_to_string (v : Nat) : String :=
  let h := natToHexChars v 32
  String.mk (h.take 8 ++ (['-'] ++ ((h.drop 8).take 4 ++ (['-'] ++ ((h.drop 12).take 4 ++
    (['-'] ++ ((h.drop 16).take 4 ++ (['-'] ++ h.drop 20))))))))

/-- Translation of the `session_id` selection of `start_session`
(main.rs:1094-1097) for a supplied id: `Uuid::parse_str(raw.trim())`
rendered back with `to_string()`; `none` models the 400 rejection.  The
resulting string is both the session-directory key and the `id` of the
returned metadata (main.rs:1101, 1126). -/
def start_session_id_of (raw : String) : Option String :=
  (uuid_parse (rust_trim raw)).map uuid_to_string

/-- Lowercase hexadecimal digit test. -/
def is_lower_hex_digit (c : Char) : Bool :=
  (decide ('0' ≤ c) && decide (c ≤ '9')) || (decide ('a' ≤ c) && decide (c ≤ 'f'))

/-- The canonical lowercase hyphenated UUID shape: 36 characters, hyphens
at offsets 8, 13, 18 and 23, lowercase hex digits everywhere else. -/
def is_canonical_uuid_string (s : String) : Bool :=
  let cs := s.data
  decide (cs.length = 36) &&
  (cs.take 8).all is_lower_hex_digit && decide ((cs.drop 8).take 1 = ['-']) &&
  ((cs.drop 9).take 4).all is_lower_hex_digit && decide ((cs.drop 13).take 1 = ['-']) &&
  ((cs.drop 14).take 4).all is_lower_hex_digit && decide ((cs.drop 18).take 1 = ['-']) &&
  ((cs.drop 19).take 4).all is_lower_hex_digit && decide ((cs.drop 23).take 1 = ['-']) &&
  (cs.drop 24).all is_lower_hex_digit

/-! Native-archive scan: `parse_rollout_session_id` (main.rs:478) and
`scan_codex_rollouts` (main.rs:497). -/

/-- `str::ends_with` on character lists. -/
def list_ends_with (s p : List Char) : Bool := list_starts_with s.reverse p.reverse

/-- UTF-8 encoding of one Unicode scalar value, as its byte list. -/
def utf8Encode (c : Char) : List Nat :=
  let n := c.toNat
  if n < 0x80 then [n]
  else if n < 0x800 then [0xC0 + n / 64, 0x80 + n % 64]
  else if n < 0x10000 then [0xE0 + n / 4096, 0x80 + (n / 64) % 64, 0x80 + n % 64]
  else [0xF0 + n / 262144, 0x80 + (n / 4096) % 64, 0x80 + (n / 64) % 64, 0x80 + n % 64]

/-- The UTF-8 byte sequence of a character list: `str::as_bytes`. -/
def utf8Bytes (cs : List Char) : List Nat := cs.flatMap utf8Encode

/-- `str::len` — the byte length. -/
def utf8Len (cs : List Char) : Nat := (utf8Bytes cs).length

/-- Byte length of one character's encoding. -/
def charUtf8Size (c : Char) : Nat := (utf8Encode c).length

/-- Drop the characters covering the first `n` bytes: the character-level
reading of the byte slice `s[n..]`.  When `n` falls on a character
boundary (the only case in which the Rust slice does not panic, and the
only case reached below, because the preceding guard pins byte `n - 1` to
the one-byte character `-`), this is exactly the slice's character list. -/
def dropBytes : List Char → Nat → List Char
  | cs, 0 => cs
  | [], _ => []
  | c :: cs, n + 1 => dropBytes cs (n + 1 - charUtf8Size c)

/-- Translation of `parse_rollout_session_id` (main.rs:478) on a file name
modelled as its character list.  The Rust code measures and indexes bytes
(`base.len()`, `base.as_bytes().get(19)`, `base[20..]`), modelled here
through the UTF-8 encoding of the characters; the two outer slices at
bytes 8 and `len - 6` coincide with dropping 8 leading and 6 trailing
characters because the guards pin those to the ASCII `rollout-` and
`.jsonl`. -/
def parse_rollout_session_id (file_name : List Char) : Option (List Char) :=
  if !(list_starts_with file_name ("rollout-".data)) ||
      !(list_ends_with file_name (".jsonl".data)) then none
  else
    let base := (file_name.drop 8).take (file_name.length - 14)
    if utf8Len base ≤ 20 then none
    else if (utf8Bytes base).get? 19 ≠ some 0x2D then none
    else
      let id := rust_trim_chars (dropBytes base 20)
      if id.isEmpty then none else some id

/-- Generic association lookup (model of `HashMap::get`). -/
def lookupKey {κ α : Type} [DecidableEq κ] : List (κ × α) → κ → Option α
  | [], _ => none
  | (k, v) :: rest, key => if k = key then some v else lookupKey rest key

/-- Model of `out.entry(session_id).or_default().push(path)`
(main.rs:523): append to the id's file list, creating the entry on first
use. -/
def add_rollout : List (List Char × List (List Char)) → List Char → List Char →
    List (List Char × List (List Char))
  | [], id, name => [(id, [name])]
  | (k, files) :: rest, id, name =>
      if k = id then (k, files ++ [name]) :: rest
      else (k, files) :: add_rollout rest id name

/-- Translation of the indexing loop of `scan_codex_rollouts`
(main.rs:497-532) over the multiset of file names found by the directory
walk; the per-thread lexical sort at the end reorders each list and is
elided — the claim concerns which names are indexed under which id. -/
def scan_codex_rollouts (names : List (List Char)) :
    List (List Char × List (List Char)) :=
  names.foldl (fun acc name =>
    match parse_rollout_session_id name with
    | some id => add_rollout acc id name
    | none => acc) []

/-- The claim's date-time stamp shape `YYYY-MM-DDTHH-MM-SS`: 19 characters,
digits except for `-` at offsets 4, 7, 13, 16 and `T` at offset 10.
(Stated from the claim's words, to compare with what the code accepts.) -/
def claimed_rollout_stamp (stamp : List Char) : Bool :=
  decide (stamp.length = 19) &&
  (List.range 19).all (fun i =>
    match stamp.get? i with
    | some c =>
        if i = 4 ∨ i = 7 ∨ i = 13 ∨ i = 16 then decide (c = '-')
        else if i = 10 then decide (c = 'T')
        else c.isDigit
    | none => false)

theorem lookupField_insertField_self (fields : List (String × Json)) (key : String) (v : Json) :
    lookupField (insertField fields key v) key = some v := by
  induction fields with
  | nil => simp [insertField, lookupField]
  | cons hd tl ih =>
      obtain ⟨k, w⟩ := hd
      by_cases hk : k = key
      · simp [insertField, lookupField, hk]
      · simp [insertField, lookupField, hk, ih]

theorem lookupField_insertField_other (fields : List (String × Json)) (key k' : String) (v : Json)
    (hne : k' ≠ key) :
    lookupField (insertField fields key v) k' = lookupField fields k' := by
  induction fields with
  | nil => simp [insertField, lookupField, Ne.symm hne]
  | cons hd tl ih =>
      obtain ⟨k, w⟩ := hd
      by_cases hk : k = key
      · subst hk
        simp [insertField, lookupField, Ne.symm hne]
      · by_cases hk' : k = k'
        · subst hk'
          simp [insertField, lookupField, hk]
        · simp [insertField, lookupField, hk, hk', ih]

/-- Claim C1: for every child stdout line carrying a `method` field,
`persist_and_emit_stdout` drops the message entirely (no event-log append,
no broadcast) when the method is one of `thread/tokenUsage/updated`,
`account/rateLimits/updated`, `item/reasoning/summaryPartAdded`; for every
other notification it appends exactly one line whose JSON equals the
received object augmented with the single extra field `_ts_ms` holding the
ingestion timestamp, and broadcasts the received message. -/
theorem persist_and_emit_stdout_spec (fields : List (String × Json)) (sid raw : String)
    (ts : Nat) (mv : Json) (hm : (Json.obj fields).get "method" = some mv) :
    (∀ m, mv = Json.str m →
      (m = "thread/tokenUsage/updated" ∨ m = "account/rateLimits/updated" ∨
        m = "item/reasoning/summaryPartAdded") →
      persist_and_emit_stdout sid raw (Json.obj fields) ts = none) ∧
    ((∀ m, mv = Json.str m →
        ¬(m = "thread/tokenUsage/updated" ∨ m = "account/rateLimits/updated" ∨
          m = "item/reasoning/summaryPartAdded")) →
      ∃ r, persist_and_emit_stdout sid raw (Json.obj fields) ts = some r ∧
        r.appended.get "_ts_ms" = some (Json.num (ts : Int)) ∧
        (∀ k, k ≠ "_ts_ms" → r.appended.get k = (Json.obj fields).get k) ∧
        r.emitted = { session_id := sid, ts_ms := ts, stream := "stdout",
                      raw := raw, json := some (Json.obj fields) }) := by
  constructor
  · intro m hmv hsupp
    subst hmv
    simp only [persist_and_emit_stdout, hm, Option.bind_some, Json.asStr]
    simp [hsupp]
  · intro hok
    refine ⟨⟨Json.obj (insertField fields "_ts_ms" (.num (ts : Int))),
        { session_id := sid, ts_ms := ts, stream := "stdout", raw := raw,
          json := some (Json.obj fields) }⟩, ?_, ?_, ?_, rfl⟩
    · cases mv with
      | str m =>
          have hns := hok m rfl
          simp [persist_and_emit_stdout, hm, Json.asStr, hns]
      | null => simp [persist_and_emit_stdout, hm, Json.asStr]
      | bool b => simp [persist_and_emit_stdout, hm, Json.asStr]
      | num n => simp [persist_and_emit_stdout, hm, Json.asStr]
      | arr xs => simp [persist_and_emit_stdout, hm, Json.asStr]
      | obj fs => simp [persist_and_emit_stdout, hm, Json.asStr]
    · simpa [Json.get] using lookupField_insertField_self fields "_ts_ms" (.num (ts : Int))
    · intro k hk
      simpa [Json.get] using
        lookupField_insertField_other fields "_ts_ms" k (.num (ts : Int)) hk

/-- Claim C1 witness: a concrete `item/completed` notification is persisted
with `_ts_ms` added and broadcast unchanged, while a concrete
`thread/tokenUsage/updated` notification is dropped. -/
theorem persist_and_emit_stdout_spec_witness :
    persist_and_emit_stdout "s" "r"
        (Json.obj [("method", Json.str "thread/tokenUsage/updated")]) 5 = none ∧
    ∃ r, persist_and_emit_stdout "s" "r"
        (Json.obj [("method", Json.str "item/completed")]) 5 = some r ∧
      r.appended.get "_ts_ms" = some (Json.num (5 : Int)) := by
  constructor
  · exact (persist_and_emit_stdout_spec [("method", Json.str "thread/tokenUsage/updated")]
      "s" "r" 5 (Json.str "thread/tokenUsage/updated") rfl).1
      "thread/tokenUsage/updated" rfl (Or.inl rfl)
  · obtain ⟨r, h1, h2, -, -⟩ :=
      (persist_and_emit_stdout_spec [("method", Json.str "item/completed")]
        "s" "r" 5 (Json.str "item/completed") rfl).2
        (by intro m hmv; cases hmv; decide)
    exact ⟨r, h1, h2⟩

theorem extract_token_usage_snapshot_eq (msg params usage last_ : Json)
    (hm : (msg.get "method").bind Json.asStr = some "thread/tokenUsage/updated")
    (hp : msg.get "params" = some params)
    (hu : params.get "tokenUsage" = some usage)
    (hl : (usage.get "last").orElse (fun _ => usage.get "total") = some last_)
    (hw : model_context_window params usage ≠ 0) :
    extract_token_usage_snapshot msg =
      some { window := model_context_window params usage
             total_tokens :=
               (((last_.get "totalTokens").bind json_u64).orElse
                 (fun _ =>
                   if 0 < u64AddWrap (u64AddWrap (tokenField last_ "inputTokens")
                        (tokenField last_ "outputTokens")) (tokenField last_ "reasoningOutputTokens")
                   then some (u64AddWrap (u64AddWrap (tokenField last_ "inputTokens")
                        (tokenField last_ "outputTokens")) (tokenField last_ "reasoningOutputTokens"))
                   else none)).getD 0
             input_tokens := tokenField last_ "inputTokens"
             output_tokens := tokenField last_ "outputTokens"
             reasoning_output_tokens := tokenField last_ "reasoningOutputTokens"
             cached_input_tokens := tokenField last_ "cachedInputTokens"
             pct_left :=
               min (u64AddWrap (u64SatMul100 (model_context_window params usage -
                      (((last_.get "totalTokens").bind json_u64).orElse
                        (fun _ =>
                          if 0 < u64AddWrap (u64AddWrap (tokenField last_ "inputTokens")
                               (tokenField last_ "outputTokens")) (tokenField last_ "reasoningOutputTokens")
                          then some (u64AddWrap (u64AddWrap (tokenField last_ "inputTokens")
                               (tokenField last_ "outputTokens")) (tokenField last_ "reasoningOutputTokens"))
                          else none)).getD 0))
                    (model_context_window params usage / 2) / model_context_window params usage) 100 } := by
  simp [extract_token_usage_snapshot, hm, hp, hu, hl, hw]

/-- Extraction succeeds only on `thread/tokenUsage/updated` lines. -/
theorem extract_token_usage_snapshot_method (msg : Json) (s : TokenUsageSnapshot)
    (h : extract_token_usage_snapshot msg = some s) :
    (msg.get "method").bind Json.asStr = some "thread/tokenUsage/updated" := by
  by_cases hm : (msg.get "method").bind Json.asStr = some "thread/tokenUsage/updated"
  · exact hm
  · simp [extract_token_usage_snapshot, hm] at h

theorem pct_formula_of_no_overflow (W T : Nat) (h : (W - T) * 100 + W / 2 < u64Mod) :
    min (u64AddWrap (u64SatMul100 (W - T)) (W / 2) / W) 100
      = min (((W - T) * 100 + W / 2) / W) 100 := by
  have h1 : (W - T) * 100 ≤ u64Mod - 1 := by omega
  have h2 : u64SatMul100 (W - T) = (W - T) * 100 := by
    simp [u64SatMul100, Nat.min_eq_left h1]
  rw [h2]
  simp [u64AddWrap, Nat.mod_eq_of_lt h]

/-- Claim C5 (amended): for a `thread/tokenUsage/updated` notification,
`extract_token_usage_snapshot` returns nothing when the context window is
zero or absent; otherwise the snapshot's total equals `last.totalTokens`
when present, and else the sum input+output+reasoning when that sum is
positive — computed in `u64`, so exactly the mathematical sum provided it
stays below `2^64` — and the percent-left equals
`((max(0, window − total) · 100 + ⌊window/2⌋) / window)` clamped to
`[0, 100]` provided that quantity's numerator stays below `2^64`
(otherwise the `u64` saturation/wrap makes the code diverge from the
formula); percent-left is always at most 100. -/
theorem extract_token_usage_snapshot_spec (msg params usage last_ : Json)
    (hm : (msg.get "method").bind Json.asStr = some "thread/tokenUsage/updated")
    (hp : msg.get "params" = some params)
    (hu : params.get "tokenUsage" = some usage) :
    (model_context_window params usage = 0 → extract_token_usage_snapshot msg = none) ∧
    ((usage.get "last").orElse (fun _ => usage.get "total") = some last_ →
      model_context_window params usage ≠ 0 →
      ∃ s, extract_token_usage_snapshot msg = some s ∧
        s.window = model_context_window params usage ∧
        (∀ t, (last_.get "totalTokens").bind json_u64 = some t → s.total_tokens = t) ∧
        ((last_.get "totalTokens").bind json_u64 = none →
          tokenField last_ "inputTokens" + tokenField last_ "outputTokens" +
              tokenField last_ "reasoningOutputTokens" < u64Mod →
          0 < tokenField last_ "inputTokens" + tokenField last_ "outputTokens" +
              tokenField last_ "reasoningOutputTokens" →
          s.total_tokens = tokenField last_ "inputTokens" + tokenField last_ "outputTokens" +
              tokenField last_ "reasoningOutputTokens") ∧
        ((s.window - s.total_tokens) * 100 + s.window / 2 < u64Mod →
          s.pct_left = min (((s.window - s.total_tokens) * 100 + s.window / 2) / s.window) 100) ∧
        s.pct_left ≤ 100) := by
  constructor
  · intro h0
    simp [extract_token_usage_snapshot, hm, hp, hu, h0]
  · intro hl hw
    refine ⟨_, extract_token_usage_snapshot_eq msg params usage last_ hm hp hu hl hw, rfl, ?_, ?_, ?_, ?_⟩
    · intro t ht
      simp [ht, Option.orElse]
    · intro hnone hlt hpos
      have hsum : u64AddWrap (u64AddWrap (tokenField last_ "inputTokens")
          (tokenField last_ "outputTokens")) (tokenField last_ "reasoningOutputTokens") =
          tokenField last_ "inputTokens" + tokenField last_ "outputTokens" +
            tokenField last_ "reasoningOutputTokens" := by
        have h1 : tokenField last_ "inputTokens" + tokenField last_ "outputTokens" < u64Mod := by
          omega
        simp only [u64AddWrap]
        rw [Nat.mod_eq_of_lt h1, Nat.mod_eq_of_lt hlt]
      simp only [hnone, hsum, Option.none_orElse]
      rw [if_pos hpos]
      rfl
    · intro hnof
      exact pct_formula_of_no_overflow _ _ hnof
    · exact Nat.min_le_right _ _

/-- Claim C5 witness: the in-particular example — a 1000-token window with
`last.totalTokens = 400` yields percent-left 60, via the main theorem. -/
theorem extract_token_usage_snapshot_spec_witness :
    ∃ s, extract_token_usage_snapshot (token_usage_msg 1000 400) = some s ∧
      s.total_tokens = 400 ∧
      s.pct_left = min (((1000 - 400) * 100 + 1000 / 2) / 1000) 100 ∧
      s.pct_left = 60 := by
  obtain ⟨s, hs, hw, htot, -, hpct, -⟩ :=
    (extract_token_usage_snapshot_spec (token_usage_msg 1000 400)
      (Json.obj [("modelContextWindow", Json.num (1000 : Int)),
                 ("tokenUsage", Json.obj [("last", Json.obj [("totalTokens", Json.num (400 : Int))])])])
      (Json.obj [("last", Json.obj [("totalTokens", Json.num (400 : Int))])])
      (Json.obj [("totalTokens", Json.num (400 : Int))])
      rfl rfl rfl).2 rfl (by decide)
  have ht : s.total_tokens = 400 := htot 400 rfl
  have hw1000 : s.window = 1000 := by rw [hw]; rfl
  have hp := hpct (by rw [hw1000, ht]; decide)
  rw [hw1000, ht] at hp
  exact ⟨s, hs, ht, hp, by rw [hp]; rfl⟩

/-- Claim C5 counterexample: at a `2^63`-token window with total 0 the code
saturates `remaining · 100` at `2^64 − 1` and then wraps the addition of
`⌊window/2⌋`, returning percent-left 0, while the claimed formula gives
100 — so the claim's percent-left equation fails as stated. -/
theorem extract_token_usage_snapshot_cex :
    (extract_token_usage_snapshot (token_usage_msg (2 ^ 63) 0)).map TokenUsageSnapshot.pct_left
        = some 0 ∧
    min (((2 ^ 63 - 0) * 100 + 2 ^ 63 / 2) / 2 ^ 63) 100 = 100 ∧ (0 : Nat) ≠ 100 := by
  refine ⟨?_, by decide, by decide⟩
  rfl

/-- Claim C3 (amended): a `thread/tokenUsage/updated` notification that
yields a snapshot always updates `last_usage_snapshot`, but overwrites the
metadata context triple exactly when the `codex_metrics` emission gate
passes (percent-left differs from the last emitted one, and there was no
prior emission or at least 5000 ms elapsed); when the gate blocks, the
metadata triple and the emitted events are unchanged by that notification.
The final snapshot is persisted again by the after-loop flush. -/
theorem metrics_step_gate_spec (sid : String) (st : MetricsLoopState) (json : Json)
    (now now2 : Nat) (snapshot : TokenUsageSnapshot)
    (h : extract_token_usage_snapshot json = some snapshot) :
    ((st.last_metrics_emitted_pct ≠ some snapshot.pct_left ∧
        (st.last_metrics_emit_ms = 0 ∨ 5000 ≤ now - st.last_metrics_emit_ms)) →
      (metrics_step sid st json now).meta_context
          = some (snapshot.window, snapshot.total_tokens, snapshot.pct_left) ∧
      (metrics_step sid st json now).emitted
          = st.emitted ++
              [{ session_id := sid, ts_ms := now, context_left_pct := snapshot.pct_left,
                 context_used_tokens := snapshot.total_tokens,
                 context_window := snapshot.window }]) ∧
    (¬(st.last_metrics_emitted_pct ≠ some snapshot.pct_left ∧
        (st.last_metrics_emit_ms = 0 ∨ 5000 ≤ now - st.last_metrics_emit_ms)) →
      (metrics_step sid st json now).meta_context = st.meta_context ∧
      (metrics_step sid st json now).emitted = st.emitted) ∧
    (metrics_step sid st json now).last_usage_snapshot = some snapshot ∧
    (metrics_finalize sid (metrics_step sid st json now) now2).meta_context
        = some (snapshot.window, snapshot.total_tokens, snapshot.pct_left) := by
  have hm := extract_token_usage_snapshot_method json snapshot h
  have hstep : metrics_step sid st json now =
      (if st.last_metrics_emitted_pct ≠ some snapshot.pct_left then
        if st.last_metrics_emit_ms = 0 ∨ 5000 ≤ now - st.last_metrics_emit_ms then
          { st with
            last_usage_snapshot := some snapshot,
            meta_context := some (snapshot.window, snapshot.total_tokens, snapshot.pct_left),
            emitted := st.emitted ++
              [{ session_id := sid, ts_ms := now, context_left_pct := snapshot.pct_left,
                 context_used_tokens := snapshot.total_tokens,
                 context_window := snapshot.window }],
            last_metrics_emit_ms := now,
            last_metrics_emitted_pct := some snapshot.pct_left }
        else { st with last_usage_snapshot := some snapshot }
      else { st with last_usage_snapshot := some snapshot }) := by
    simp [metrics_step, hm, h]
  by_cases hpc : st.last_metrics_emitted_pct ≠ some snapshot.pct_left
  · by_cases htm : st.last_metrics_emit_ms = 0 ∨ 5000 ≤ now - st.last_metrics_emit_ms
    · rw [hstep, if_pos hpc, if_pos htm]
      refine ⟨fun _ => ⟨rfl, rfl⟩, fun hng => absurd ⟨hpc, htm⟩ hng, rfl, ?_⟩
      simp [metrics_finalize]
    · rw [hstep, if_pos hpc, if_neg htm]
      exact ⟨fun hg => absurd hg.2 htm, fun _ => ⟨rfl, rfl⟩, rfl, by simp [metrics_finalize]⟩
  · rw [hstep, if_neg hpc]
    exact ⟨fun hg => absurd hg.1 hpc, fun _ => ⟨rfl, rfl⟩, rfl, by simp [metrics_finalize]⟩

/-- Claim C3 witness: on a fresh drain-loop state the first snapshot passes
the gate and the metadata triple is overwritten with it. -/
theorem metrics_step_gate_spec_witness :
    (metrics_step "s" (metrics_loop_init none) (token_usage_msg 1000 400) 7).meta_context
      = some (1000, 400, 60) :=
  ((metrics_step_gate_spec "s" (metrics_loop_init none) (token_usage_msg 1000 400) 7 8
      { window := 1000, total_tokens := 400, input_tokens := 0, output_tokens := 0,
        reasoning_output_tokens := 0, cached_input_tokens := 0, pct_left := 60 }
      rfl).1 (by constructor <;> simp [metrics_loop_init])).1

/-- Claim C3 counterexample: two snapshot-yielding notifications one second
apart (totals 100 then 200 against a 1000-token window).  The second one
yields a snapshot with context triple (1000, 200, 80), yet after processing
it the metadata triple still holds the first snapshot's (1000, 100, 90):
the triple is not overwritten on every update, only when a `codex_metrics`
event is emitted. -/
theorem metrics_step_meta_cex :
    ((metrics_step "s" (metrics_step "s" (metrics_loop_init none) (token_usage_msg 1000 100) 1000)
        (token_usage_msg 1000 200) 2000).meta_context = some (1000, 100, 90)) ∧
    (extract_token_usage_snapshot (token_usage_msg 1000 200)).map
        (fun s => (s.window, s.total_tokens, s.pct_left)) = some (1000, 200, 80) ∧
    ((metrics_step "s" (metrics_step "s" (metrics_loop_init none) (token_usage_msg 1000 100) 1000)
        (token_usage_msg 1000 200) 2000).emitted.length = 1) := by
  refine ⟨?_, ?_, ?_⟩ <;> rfl

/-- Claim C4: when the drain loop ends on a `turn/completed` notification
(so `cancelled` is false), the broadcast `codex_run_finished` fields are:
status `completed` gives success=true with no exit code; `interrupted`
gives success=false with no exit code; any other status, a missing one
included, gives success=false with exit code 1. -/
theorem run_finished_turn_completed_spec (json : Json) :
    (turn_completed_status json = some "completed" →
      final_run_finished false (run_finished_on_turn_completed json).1
        (run_finished_on_turn_completed json).2 = (true, none)) ∧
    (turn_completed_status json = some "interrupted" →
      final_run_finished false (run_finished_on_turn_completed json).1
        (run_finished_on_turn_completed json).2 = (false, none)) ∧
    (∀ s, turn_completed_status json = some s → s ≠ "completed" → s ≠ "interrupted" →
      final_run_finished false (run_finished_on_turn_completed json).1
        (run_finished_on_turn_completed json).2 = (false, some 1)) ∧
    (turn_completed_status json = none →
      final_run_finished false (run_finished_on_turn_completed json).1
        (run_finished_on_turn_completed json).2 = (false, some 1)) := by
  refine ⟨fun h => ?_, fun h => ?_, fun s h h1 h2 => ?_, fun h => ?_⟩
  · simp [run_finished_on_turn_completed, final_run_finished, h]
  · simp [run_finished_on_turn_completed, final_run_finished, h]
  · simp [run_finished_on_turn_completed, final_run_finished, h, h1, h2]
  · simp [run_finished_on_turn_completed, final_run_finished, h]

/-- Claim C4 witness: a concrete `turn/completed` notification of each
shape, via the main theorem. -/
theorem run_finished_turn_completed_spec_witness :
    final_run_finished false
      (run_finished_on_turn_completed
        (Json.obj [("method", Json.str "turn/completed"),
                   ("params", Json.obj [("turn", Json.obj [("status", Json.str "completed")])])])).1
      (run_finished_on_turn_completed
        (Json.obj [("method", Json.str "turn/completed"),
                   ("params", Json.obj [("turn", Json.obj [("status", Json.str "completed")])])])).2
      = (true, none) ∧
    final_run_finished false
      (run_finished_on_turn_completed
        (Json.obj [("method", Json.str "turn/completed"),
                   ("params", Json.obj [("turn", Json.obj [("status", Json.str "failed")])])])).1
      (run_finished_on_turn_completed
        (Json.obj [("method", Json.str "turn/completed"),
                   ("params", Json.obj [("turn", Json.obj [("status", Json.str "failed")])])])).2
      = (false, some 1) ∧
    final_run_finished false
      (run_finished_on_turn_completed (Json.obj [("method", Json.str "turn/completed")])).1
      (run_finished_on_turn_completed (Json.obj [("method", Json.str "turn/completed")])).2
      = (false, some 1) :=
  ⟨(run_finished_turn_completed_spec _).1 rfl,
   (run_finished_turn_completed_spec _).2.2.1 "failed" rfl (by decide) (by decide),
   (run_finished_turn_completed_spec _).2.2.2 rfl⟩

/-- Claim C7: for every JSON value and expected `i64` request id, the
correlation accepts exactly the values whose `id` field is the JSON number
equal to the expected integer or the JSON string equal to its decimal
form; a missing `id` or an `id` of any other JSON type never matches. -/
theorem jsonrpc_id_matches_spec (value : Json) (expected : Int)
    (hlo : -i64Bound ≤ expected) (hhi : expected < i64Bound) :
    jsonrpc_id_matches value expected = true ↔
      (value.get "id" = some (Json.num expected) ∨
       value.get "id" = some (Json.str (toString expected))) := by
  cases hid : value.get "id" with
  | none => simp [jsonrpc_id_matches, hid]
  | some id =>
    cases id with
    | num n =>
        have hrw : jsonrpc_id_matches value expected
            = ((if -i64Bound ≤ n ∧ n < i64Bound then some n else none) == some expected) := by
          simp [jsonrpc_id_matches, hid, Json.asI64]
        rw [hrw, beq_iff_eq]
        by_cases hc : -i64Bound ≤ n ∧ n < i64Bound
        · rw [if_pos hc]
          simp
        · rw [if_neg hc]
          constructor
          · intro h
            exact absurd h (by simp)
          · rintro (h | h)
            · obtain rfl : n = expected := by simpa using h
              exact absurd ⟨hlo, hhi⟩ hc
            · simp at h
    | str s =>
        have hrw : jsonrpc_id_matches value expected = (s == toString expected) := by
          simp [jsonrpc_id_matches, hid]
        rw [hrw, beq_iff_eq]
        simp
    | null => simp [jsonrpc_id_matches, hid]
    | bool b => simp [jsonrpc_id_matches, hid]
    | arr xs => simp [jsonrpc_id_matches, hid]
    | obj fs => simp [jsonrpc_id_matches, hid]

/-- Claim C7 witness: id 7 is matched both as the number 7 and as the
string form, and a boolean id is rejected, via the main theorem. -/
theorem jsonrpc_id_matches_spec_witness :
    jsonrpc_id_matches (Json.obj [("id", Json.num 7)]) 7 = true ∧
    jsonrpc_id_matches (Json.obj [("id", Json.str "7")]) 7 = true ∧
    jsonrpc_id_matches (Json.obj [("id", Json.bool true)]) 7 = false := by
  refine ⟨?_, ?_, ?_⟩
  · exact (jsonrpc_id_matches_spec (Json.obj [("id", Json.num 7)]) 7
      (by norm_num [i64Bound]) (by norm_num [i64Bound])).mpr (Or.inl rfl)
  · exact (jsonrpc_id_matches_spec (Json.obj [("id", Json.str "7")]) 7
      (by norm_num [i64Bound]) (by norm_num [i64Bound])).mpr (Or.inr rfl)
  · have h := (jsonrpc_id_matches_spec (Json.obj [("id", Json.bool true)]) 7
      (by norm_num [i64Bound]) (by norm_num [i64Bound]))
    by_contra hb
    have : jsonrpc_id_matches (Json.obj [("id", Json.bool true)]) 7 = true := by
      revert hb
      cases jsonrpc_id_matches (Json.obj [("id", Json.bool true)]) 7 <;> simp
    rcases h.mp this with h1 | h1 <;> simp [Json.get, lookupField] at h1

theorem mem_foldl_append {β : Type} (g : β → List String) (l : List β) (acc : List String)
    (x : String) :
    x ∈ List.foldl (fun a f => a ++ g f) acc l ↔ x ∈ acc ∨ ∃ f ∈ l, x ∈ g f := by
  induction l generalizing acc with
  | nil => simp
  | cons hd tl ih =>
      rw [List.foldl_cons, ih]
      simp [List.mem_append, or_assoc]

theorem not_mem_native_list_visible (rollouts : List (String × List (List String)))
    (derived : String → NativeDerived) (titles : List (String × String)) (sid : String)
    (hexec : (derived sid).source = some "exec" ∨ (derived sid).originator = some "codex_exec")
    (acc : List String) (hacc : sid ∉ acc) :
    sid ∉ rollouts.foldl (fun acc kv =>
      if kv.2.isEmpty then acc
      else
        let d := derived kv.1
        if d.source = some "exec" ∨ d.originator = some "codex_exec" then acc
        else
          match native_title titles kv.1 d with
          | none => acc
          | some _ => acc ++ [kv.1]) acc := by
  induction rollouts generalizing acc with
  | nil => simpa using hacc
  | cons kv tl ih =>
      rw [List.foldl_cons]
      apply ih
      by_cases hempty : kv.2.isEmpty
      · simpa [hempty] using hacc
      · by_cases hkv : kv.1 = sid
        · simp [hempty, hkv, hexec, hacc]
        · by_cases hex : (derived kv.1).source = some "exec" ∨
              (derived kv.1).originator = some "codex_exec"
          · simpa [hempty, hex] using hacc
          · cases ht : native_title titles kv.1 (derived kv.1) with
            | none => simpa [hempty, hex, ht] using hacc
            | some t =>
                simp only [hempty, hex, ht]
                simp [hacc, hkv, Ne.symm hkv]

/-- Claim C2 (amended): an `exec`-origin thread (derived `source == "exec"`
or `originator == "codex_exec"`) never appears among the native entries of
`/api/sessions` and `native_session_meta` returns nothing for it; its
rollout lines, however, still contribute to the SSE `stream` backlog for
that session id, which applies no `exec` filter (every tail line of every
rollout file of the id is included whenever the effective tail is
positive). -/
theorem native_exec_hidden_spec (rollouts : List (String × List (List String)))
    (derived : String → NativeDerived) (titles : List (String × String)) (sid : String)
    (tail : Option Nat)
    (hexec : (derived sid).source = some "exec" ∨ (derived sid).originator = some "codex_exec") :
    sid ∉ native_list_visible rollouts derived titles ∧
    native_session_meta rollouts derived titles sid = none ∧
    (∀ paths f line, lookupAssoc rollouts sid = some paths → f ∈ paths →
      line ∈ read_tail_lines f (effective_tail tail) → 0 < effective_tail tail →
      line ∈ stream_native_backlog rollouts sid tail) := by
  refine ⟨?_, ?_, ?_⟩
  · exact not_mem_native_list_visible rollouts derived titles sid hexec [] (by simp)
  · cases hl : lookupAssoc rollouts sid with
    | none => simp [native_session_meta, hl]
    | some paths =>
        by_cases hempty : paths.isEmpty
        · simp [native_session_meta, hl, hempty]
        · simp [native_session_meta, hl, hempty, hexec]
  · intro paths f line hl hf hline ht
    unfold stream_native_backlog
    simp only [hl, if_pos ht]
    exact (mem_foldl_append _ paths [] line).mpr (Or.inr ⟨f, hf, hline⟩)

/-- Claim C2 witness: a thread with `originator == "codex_exec"` is hidden
from the native listing and from `native_session_meta`, and its rollout
line is reachable in the backlog, via the main theorem. -/
theorem native_exec_hidden_spec_witness :
    "t2" ∉ native_list_visible [("t2", [["x"]])]
        (fun _ => { cwd := none, originator := some "codex_exec", source := none,
                    last_prompt := some "p", latest_mtime_ms := 0 }) [] ∧
    native_session_meta [("t2", [["x"]])]
        (fun _ => { cwd := none, originator := some "codex_exec", source := none,
                    last_prompt := some "p", latest_mtime_ms := 0 }) [] "t2" = none ∧
    "x" ∈ stream_native_backlog [("t2", [["x"]])] "t2" none := by
  obtain ⟨h1, h2, h3⟩ := native_exec_hidden_spec [("t2", [["x"]])]
      (fun _ => { cwd := none, originator := some "codex_exec", source := none,
                  last_prompt := some "p", latest_mtime_ms := 0 }) [] "t2" none
      (Or.inr rfl)
  exact ⟨h1, h2, h3 [["x"]] ["x"] "x" rfl (by decide) (by decide) (by decide)⟩

/-- Claim C2 counterexample: a thread `t` whose derived metadata carries
`source == "exec"` and a single rollout file with one line.  The native
list omits it and `native_session_meta` returns nothing, but the default
`stream` backlog for `t` contains that rollout line — contradicting the
claim that exec rollout lines never contribute to the backlog. -/
theorem native_exec_backlog_cex :
    native_list_visible [("t", [["l1"]])]
        (fun _ => { cwd := none, originator := none, source := some "exec",
                    last_prompt := some "hello", latest_mtime_ms := 0 }) [] = [] ∧
    native_session_meta [("t", [["l1"]])]
        (fun _ => { cwd := none, originator := none, source := some "exec",
                    last_prompt := some "hello", latest_mtime_ms := 0 }) [] "t" = none ∧
    stream_native_backlog [("t", [["l1"]])] "t" none = ["l1"] ∧
    stream_native_backlog [("t", [["l1"]])] "t" none ≠ [] := by
  refine ⟨rfl, rfl, rfl, by decide⟩

/-- Claim C8: the effective backlog size for
`GET /api/sessions/:id/stream` is 4000 when the `tail` query parameter is
absent, 0 when `tail=0` (backlog disabled — nothing is collected), and
otherwise the given value clamped into [50, 50000]; the backlog is then
truncated to at most that many entries. -/
theorem stream_tail_spec :
    effective_tail none = 4000 ∧
    effective_tail (some 0) = 0 ∧
    (∀ n, n ≠ 0 → effective_tail (some n) = min (max n 50) 50000) ∧
    (∀ rollouts sid, stream_native_backlog rollouts sid (some 0) = []) ∧
    (∀ (backlog : List String) t, t ≠ 0 →
      (backlog_truncate backlog t).length = min backlog.length t) := by
  refine ⟨rfl, rfl, fun n hn => ?_, fun rollouts sid => rfl, fun backlog t ht => ?_⟩
  · match n, hn with
    | n + 1, _ =>
        simp only [effective_tail, rust_clamp]
        split
        · omega
        · split <;> omega
  · unfold backlog_truncate
    split
    · simp
      omega
    · simp
      omega

/-- Claim C8 witness: concrete tail values, via the main theorem. -/
theorem stream_tail_spec_witness :
    effective_tail (some 7) = 50 ∧ effective_tail (some 90000) = 50000 ∧
    effective_tail (some 700) = 700 ∧
    (backlog_truncate ["a", "b", "c"] 2).length = 2 := by
  refine ⟨?_, ?_, ?_, ?_⟩
  · rw [stream_tail_spec.2.2.1 7 (by decide)]; decide
  · rw [stream_tail_spec.2.2.1 90000 (by decide)]; decide
  · rw [stream_tail_spec.2.2.1 700 (by decide)]; decide
  · rw [stream_tail_spec.2.2.2.2 ["a", "b", "c"] 2 (by decide)]; decide

/-- Claim C10: `POST /api/sessions/:id/stop` answers 204 No Content on
every input — it never answers 404, for ids unknown to any store included —
and when no run handle exists for the id it changes nothing and performs
no signalling or broadcasting. -/
theorem stop_session_spec (runs : List (String × RunHandle)) (sid : String)
    (send_fails : Bool) (meta_status : Option SessionStatus) :
    (stop_session runs sid send_fails meta_status).status_code = 204 ∧
    (lookupAssoc runs sid = none →
      stop_session runs sid send_fails meta_status =
        { status_code := 204, runs := runs, meta_status := meta_status,
          sigint_pid := none, finished_broadcast := none }) := by
  constructor
  · unfold stop_session
    cases lookupAssoc runs sid with
    | none => rfl
    | some handle =>
        by_cases hd : handle.cancel_present && send_fails
        · simp [hd]
        · simp [hd]
  · intro hl
    simp [stop_session, hl]

/-- Claim C10 witness: stopping an id with no run handle (empty registry,
no metadata) answers 204 and leaves everything untouched, via the main
theorem. -/
theorem stop_session_spec_witness :
    stop_session [] "unknown-id" false none =
      { status_code := 204, runs := [], meta_status := none,
        sigint_pid := none, finished_broadcast := none } :=
  (stop_session_spec [] "unknown-id" false none).2 rfl

theorem is_lower_hex_digit_toLowerHexDigit (d : Nat) (hd : d < 16) :
    is_lower_hex_digit (toLowerHexDigit d) = true := by
  interval_cases d <;> decide

theorem natToHexChars_length (v width : Nat) : (natToHexChars v width).length = width := by
  simp [natToHexChars]

theorem natToHexChars_all_hex (v width : Nat) :
    (natToHexChars v width).all is_lower_hex_digit = true := by
  rw [List.all_eq_true]
  intro x hx
  rw [natToHexChars, List.mem_map] at hx
  obtain ⟨i, -, rfl⟩ := hx
  exact is_lower_hex_digit_toLowerHexDigit _ (Nat.mod_lt _ (by norm_num))

theorem all_of_take {p : Char → Bool} {l : List Char} (n : Nat) (h : l.all p = true) :
    (l.take n).all p = true := by
  rw [List.all_eq_true] at h ⊢
  exact fun x hx => h x (List.take_subset n l hx)

theorem all_of_drop {p : Char → Bool} {l : List Char} (n : Nat) (h : l.all p = true) :
    (l.drop n).all p = true := by
  rw [List.all_eq_true] at h ⊢
  exact fun x hx => h x (List.drop_subset n l hx)

theorem drop_past (L : List Char) (n m : Nat) (a R : List Char) (h : L.drop n = a ++ R)
    (ha : a.length = m) : L.drop (n + m) = R := by
  have h' : (L.drop n).drop m = L.drop (n + m) := List.drop_drop m n L
  rw [h, List.drop_left' ha] at h'
  exact h'.symm

theorem is_canonical_uuid_to_string (v : Nat) :
    is_canonical_uuid_string (uuid_to_string v) = true := by
  have hh : (natToHexChars v 32).length = 32 := natToHexChars_length v 32
  have hall : (natToHexChars v 32).all is_lower_hex_digit = true := natToHexChars_all_hex v 32
  set h := natToHexChars v 32 with hhdef
  have h1 : (h.take 8).length = 8 := by simp [List.length_take, hh]
  have h2 : ((h.drop 8).take 4).length = 4 := by simp [List.length_take, List.length_drop, hh]
  have h3 : ((h.drop 12).take 4).length = 4 := by simp [List.length_take, List.length_drop, hh]
  have h4 : ((h.drop 16).take 4).length = 4 := by simp [List.length_take, List.length_drop, hh]
  have h5 : (h.drop 20).length = 12 := by simp [List.length_drop, hh]
  have hcs : (uuid_to_string v).data =
      h.take 8 ++ (['-'] ++ ((h.drop 8).take 4 ++ (['-'] ++ ((h.drop 12).take 4 ++
        (['-'] ++ ((h.drop 16).take 4 ++ (['-'] ++ h.drop 20))))))) := rfl
  set L := (uuid_to_string v).data with hLdef
  have d8 : L.drop 8 = ['-'] ++ ((h.drop 8).take 4 ++ (['-'] ++ ((h.drop 12).take 4 ++
      (['-'] ++ ((h.drop 16).take 4 ++ (['-'] ++ h.drop 20)))))) := by
    rw [hcs]
    exact List.drop_left' h1
  have d9 : L.drop 9 = (h.drop 8).take 4 ++ (['-'] ++ ((h.drop 12).take 4 ++
      (['-'] ++ ((h.drop 16).take 4 ++ (['-'] ++ h.drop 20))))) := by
    have := drop_past L 8 1 ['-'] _ d8 rfl
    norm_num at this
    exact this
  have d13 : L.drop 13 = ['-'] ++ ((h.drop 12).take 4 ++
      (['-'] ++ ((h.drop 16).take 4 ++ (['-'] ++ h.drop 20)))) := by
    have := drop_past L 9 4 ((h.drop 8).take 4) _ d9 h2
    norm_num at this
    exact this
  have d14 : L.drop 14 = (h.drop 12).take 4 ++
      (['-'] ++ ((h.drop 16).take 4 ++ (['-'] ++ h.drop 20))) := by
    have := drop_past L 13 1 ['-'] _ d13 rfl
    norm_num at this
    exact this
  have d18 : L.drop 18 = ['-'] ++ ((h.drop 16).take 4 ++ (['-'] ++ h.drop 20)) := by
    have := drop_past L 14 4 ((h.drop 12).take 4) _ d14 h3
    norm_num at this
    exact this
  have d19 : L.drop 19 = (h.drop 16).take 4 ++ (['-'] ++ h.drop 20) := by
    have := drop_past L 18 1 ['-'] _ d18 rfl
    norm_num at this
    exact this
  have d23 : L.drop 23 = ['-'] ++ (h.drop 20) := by
    have := drop_past L 19 4 ((h.drop 16).take 4) _ d19 h4
    norm_num at this
    exact this
  have d24 : L.drop 24 = h.drop 20 := by
    have := drop_past L 23 1 ['-'] _ d23 rfl
    norm_num at this
    exact this
  rw [is_canonical_uuid_string]
  simp only [← hLdef, Bool.and_eq_true, decide_eq_true_eq]
  refine ⟨⟨⟨⟨⟨⟨⟨⟨⟨?_, ?_⟩, ?_⟩, ?_⟩, ?_⟩, ?_⟩, ?_⟩, ?_⟩, ?_⟩, ?_⟩
  · rw [hcs]
    simp [List.length_append, h1, h2, h3, h4, h5]
  · rw [hcs, List.take_left' h1]
    exact all_of_take 8 hall
  · rw [d8]
    rfl
  · rw [d9, List.take_left' h2]
    exact all_of_take 4 (all_of_drop 8 hall)
  · rw [d13]
    rfl
  · rw [d14, List.take_left' h3]
    exact all_of_take 4 (all_of_drop 12 hall)
  · rw [d18]
    rfl
  · rw [d19, List.take_left' h4]
    exact all_of_take 4 (all_of_drop 16 hall)
  · rw [d23]
    rfl
  · rw [d24]
    exact all_of_drop 20 hall

/-- Claim C9: when `POST /api/sessions` is given a `session_id` string
that parses as a UUID, the session is created under — and the returned
metadata's `id` equals — the canonical lowercase hyphenated rendering of
that UUID (in particular not the supplied string when the latter is
non-canonical, e.g. uppercase hex). -/
theorem start_session_canonical_id (raw : String) (u : Nat)
    (h : uuid_parse (rust_trim raw) = some u) :
    start_session_id_of raw = some (uuid_to_string u) ∧
    is_canonical_uuid_string (uuid_to_string u) = true :=
  ⟨by simp [start_session_id_of, h], is_canonical_uuid_to_string u⟩

/-- Claim C9 witness: an uppercase-hex UUID is canonicalized to the
lowercase hyphenated form, which differs from the supplied string, via the
main theorem. -/
theorem start_session_canonical_id_witness :
    start_session_id_of "ABCDEF01-2345-6789-ABCD-EF0123456789"
        = some "abcdef01-2345-6789-abcd-ef0123456789" ∧
    is_canonical_uuid_string "abcdef01-2345-6789-abcd-ef0123456789" = true ∧
    ("abcdef01-2345-6789-abcd-ef0123456789" : String) ≠ "ABCDEF01-2345-6789-ABCD-EF0123456789" := by
  have heq : uuid_to_string 0xABCDEF0123456789ABCDEF0123456789
      = "abcdef01-2345-6789-abcd-ef0123456789" := by decide
  obtain ⟨hid, hcanon⟩ := start_session_canonical_id "ABCDEF01-2345-6789-ABCD-EF0123456789"
      0xABCDEF0123456789ABCDEF0123456789 (by decide)
  refine ⟨by rw [hid, heq], by rw [← heq]; exact hcanon, by decide⟩

theorem list_starts_with_iff (p : List Char) : ∀ s : List Char,
    list_starts_with s p = true ↔ ∃ t, s = p ++ t := by
  induction p with
  | nil =>
      intro s
      simp [list_starts_with]
  | cons c ps ih =>
      intro s
      cases s with
      | nil =>
          constructor
          · intro h
            simp [list_starts_with] at h
          · rintro ⟨t, ht⟩
            simp at ht
      | cons a as =>
          rw [show list_starts_with (a :: as) (c :: ps)
              = (decide (a = c) && list_starts_with as ps) from rfl]
          rw [Bool.and_eq_true, decide_eq_true_eq, ih as]
          constructor
          · rintro ⟨rfl, t, rfl⟩
            exact ⟨t, rfl⟩
          · rintro ⟨t, ht⟩
            rw [List.cons_append] at ht
            obtain ⟨rfl, rfl⟩ : a = c ∧ as = ps ++ t := by
              constructor <;> [exact (List.cons.injEq _ _ _ _ ▸ ht).1;
                exact (List.cons.injEq _ _ _ _ ▸ ht).2]
            exact ⟨rfl, t, rfl⟩

theorem list_ends_with_iff (p s : List Char) :
    list_ends_with s p = true ↔ ∃ t, s = t ++ p := by
  rw [list_ends_with, list_starts_with_iff]
  constructor
  · rintro ⟨t, ht⟩
    refine ⟨t.reverse, ?_⟩
    have := congrArg List.reverse ht
    simpa using this
  · rintro ⟨t, rfl⟩
    exact ⟨t.reverse, by simp⟩

theorem char_eq_of_toNat_eq {a b : Char} (h : a.toNat = b.toNat) : a = b := by
  have h2 := congrArg Char.ofNat h
  rwa [Char.ofNat_toNat, Char.ofNat_toNat] at h2

theorem utf8Bytes_cons (c : Char) (cs : List Char) :
    utf8Bytes (c :: cs) = utf8Encode c ++ utf8Bytes cs := by
  simp [utf8Bytes]

theorem utf8Bytes_append (a b : List Char) :
    utf8Bytes (a ++ b) = utf8Bytes a ++ utf8Bytes b := by
  simp [utf8Bytes]

theorem utf8Len_append (a b : List Char) : utf8Len (a ++ b) = utf8Len a + utf8Len b := by
  simp [utf8Len, utf8Bytes_append]

theorem utf8Len_cons (c : Char) (cs : List Char) :
    utf8Len (c :: cs) = charUtf8Size c + utf8Len cs := by
  simp [utf8Len, utf8Bytes_cons, charUtf8Size]

theorem charUtf8Size_pos (c : Char) : 1 ≤ charUtf8Size c := by
  rw [charUtf8Size, utf8Encode]
  split_ifs <;> simp

theorem utf8Len_pos (cs : List Char) (h : cs ≠ []) : 1 ≤ utf8Len cs := by
  cases cs with
  | nil => exact absurd rfl h
  | cons c cs' =>
      rw [utf8Len_cons]
      have := charUtf8Size_pos c
      omega

theorem utf8Encode_ascii (c : Char) (h : c.toNat < 0x80) : utf8Encode c = [c.toNat] := by
  rw [utf8Encode]
  rw [if_pos h]

theorem utf8Encode_byte_ge (c : Char) (h : ¬c.toNat < 0x80) :
    ∀ b ∈ utf8Encode c, 0x80 ≤ b := by
  intro b hb
  rw [utf8Encode] at hb
  rw [if_neg h] at hb
  split_ifs at hb with h2 h3
  · simp at hb
    rcases hb with rfl | rfl <;> omega
  · simp at hb
    rcases hb with rfl | rfl | rfl <;> omega
  · simp at hb
    rcases hb with rfl | rfl | rfl | rfl <;> omega

/-- An ASCII byte inside a UTF-8 stream always stands on a character
boundary: if byte `n` of the encoding of `cs` is an ASCII value `b`, then
`cs` splits into a prefix occupying exactly `n` bytes, the one-byte
character `b`, and a remainder. -/
theorem utf8Bytes_get_ascii_split (cs : List Char) : ∀ n b : Nat, b < 0x80 →
    (utf8Bytes cs).get? n = some b →
    ∃ A c0 B, cs = A ++ c0 :: B ∧ utf8Len A = n ∧ c0.toNat = b := by
  induction cs with
  | nil =>
      intro n b hb h
      simp [utf8Bytes] at h
  | cons c cs' ih =>
      intro n b hb h
      rw [utf8Bytes_cons] at h
      by_cases hn : n < (utf8Encode c).length
      · rw [List.get?_append hn] at h
        by_cases hc : c.toNat < 0x80
        · rw [utf8Encode_ascii c hc] at h hn
          have hn0 : n = 0 := by simpa using hn
          subst hn0
          have hcb : c.toNat = b := by simpa using h
          exact ⟨[], c, cs', rfl, rfl, hcb⟩
        · have hmem : b ∈ utf8Encode c := List.get?_mem h
          have := utf8Encode_byte_ge c hc b hmem
          omega
      · push_neg at hn
        rw [List.get?_append_right hn] at h
        obtain ⟨A, c0, B, hcs, hlen, hc0⟩ := ih (n - (utf8Encode c).length) b hb h
        refine ⟨c :: A, c0, B, by rw [hcs, List.cons_append], ?_, hc0⟩
        rw [utf8Len_cons, hlen, charUtf8Size]
        omega

/-- Dropping exactly a prefix's byte count drops exactly that prefix. -/
theorem dropBytes_append (A B : List Char) : dropBytes (A ++ B) (utf8Len A) = B := by
  induction A with
  | nil =>
      show dropBytes B (utf8Len []) = B
      rw [show utf8Len ([] : List Char) = 0 from rfl]
      simp only [dropBytes]
  | cons c A' ih =>
      rw [List.cons_append, utf8Len_cons]
      have hpos : 1 ≤ charUtf8Size c := charUtf8Size_pos c
      have hsplit : charUtf8Size c + utf8Len A' = (charUtf8Size c + utf8Len A' - 1) + 1 := by
        omega
      rw [hsplit]
      show dropBytes (c :: (A' ++ B)) ((charUtf8Size c + utf8Len A' - 1) + 1) = B
      simp only [dropBytes]
      have hidx : (charUtf8Size c + utf8Len A' - 1) + 1 - charUtf8Size c = utf8Len A' := by
        omega
      rw [hidx]
      exact ih

theorem lookupKey_add_rollout_self (acc : List (List Char × List (List Char)))
    (id name : List Char) :
    lookupKey (add_rollout acc id name) id = some ((lookupKey acc id).getD [] ++ [name]) := by
  induction acc with
  | nil => simp [add_rollout, lookupKey]
  | cons kv rest ih =>
      obtain ⟨k, files⟩ := kv
      by_cases hk : k = id
      · subst hk
        simp [add_rollout, lookupKey]
      · simp [add_rollout, lookupKey, hk, ih]

theorem lookupKey_add_rollout_other (acc : List (List Char × List (List Char)))
    (id id' name : List Char) (hne : id' ≠ id) :
    lookupKey (add_rollout acc id name) id' = lookupKey acc id' := by
  induction acc with
  | nil => simp [add_rollout, lookupKey, Ne.symm hne]
  | cons kv rest ih =>
      obtain ⟨k, files⟩ := kv
      by_cases hk : k = id
      · subst hk
        simp [add_rollout, lookupKey, Ne.symm hne]
      · by_cases hk' : k = id'
        · subst hk'
          simp [add_rollout, lookupKey, hk]
        · simp [add_rollout, lookupKey, hk, hk', ih]

theorem scan_fold_lookup (names : List (List Char)) : ∀ (acc : List (List Char × List (List Char)))
    (id : List Char),
    (lookupKey (names.foldl (fun acc name =>
        match parse_rollout_session_id name with
        | some i => add_rollout acc i name
        | none => acc) acc) id).getD []
      = (lookupKey acc id).getD []
          ++ names.filter (fun n => parse_rollout_session_id n = some id) := by
  induction names with
  | nil => simp
  | cons n ns ih =>
      intro acc id
      rw [List.foldl_cons, ih]
      cases hp : parse_rollout_session_id n with
      | none => simp [List.filter_cons, hp]
      | some j =>
          by_cases hj : j = id
          · subst hj
            simp [List.filter_cons, hp, lookupKey_add_rollout_self]
          · simp [List.filter_cons, hp, hj, lookupKey_add_rollout_other acc j id n (Ne.symm hj)]

theorem rollout_lead_length : ("rollout-".data).length = 8 := rfl

theorem jsonl_tail_length : (".jsonl".data).length = 6 := rfl

/-- Characterization of what `parse_rollout_session_id` accepts: the name
decomposes as `rollout-` ++ a stamp occupying exactly 19 UTF-8 bytes ++
`-` ++ a remainder whose trim is the non-empty id ++ `.jsonl`; the stamp's
characters are otherwise unconstrained. -/
theorem parse_rollout_session_id_iff (name id : List Char) :
    parse_rollout_session_id name = some id ↔
      ∃ stamp rest, name = ("rollout-".data) ++ (stamp ++ (['-'] ++ (rest ++ (".jsonl".data)))) ∧
        utf8Len stamp = 19 ∧ rust_trim_chars rest = id ∧ id ≠ [] := by
  constructor
  · intro hp
    rw [parse_rollout_session_id] at hp
    by_cases hsw : list_starts_with name ("rollout-".data) = true
    case neg =>
      rw [Bool.not_eq_true] at hsw
      rw [if_pos (by rw [hsw]; rfl)] at hp
      exact absurd hp (by simp)
    by_cases hew : list_ends_with name (".jsonl".data) = true
    case neg =>
      rw [Bool.not_eq_true] at hew
      rw [if_pos (by rw [hew, hsw]; rfl)] at hp
      exact absurd hp (by simp)
    rw [if_neg (by rw [hsw, hew]; simp)] at hp
    set base := (name.drop 8).take (name.length - 14) with hbase
    by_cases hlen : utf8Len base ≤ 20
    case pos =>
      rw [if_pos hlen] at hp
      exact absurd hp (by simp)
    rw [if_neg hlen] at hp
    by_cases h19 : (utf8Bytes base).get? 19 = some 0x2D
    case neg =>
      rw [if_pos h19] at hp
      exact absurd hp (by simp)
    rw [if_neg (not_not_intro h19)] at hp
    by_cases hid0 : (rust_trim_chars (dropBytes base 20)).isEmpty = true
    case pos =>
      rw [if_pos hid0] at hp
      exact absurd hp (by simp)
    rw [if_neg hid0] at hp
    have hid : rust_trim_chars (dropBytes base 20) = id := Option.some.inj hp
    obtain ⟨A, c0, B, hbAB, hA19, hc0⟩ :=
      utf8Bytes_get_ascii_split base 19 0x2D (by norm_num) h19
    have hc0dash : c0 = '-' := char_eq_of_toNat_eq hc0
    subst hc0dash
    obtain ⟨t, hts⟩ := (list_starts_with_iff _ name).mp hsw
    obtain ⟨u, hue⟩ := (list_ends_with_iff _ name).mp hew
    have hd8 : name.drop 8 = t := by
      rw [hts, ← rollout_lead_length, List.drop_left]
    have hnlen : name.length = 8 + t.length := by
      rw [hts, List.length_append, rollout_lead_length]
    have hblen : base.length = t.length - 6 := by
      rw [hbase, hd8, hnlen]
      simp [List.length_take]
      omega
    have hbne : base ≠ [] := by
      intro h0
      rw [h0] at hlen
      exact hlen (by norm_num [utf8Len, utf8Bytes])
    have hbpos : 0 < base.length := List.length_pos.mpr hbne
    have htl : 6 < t.length := by omega
    have hulen : u.length = t.length + 2 := by
      have h6 : name.length = u.length + 6 := by
        rw [hue, List.length_append, jsonl_tail_length]
      omega
    have hbt : base = t.take (t.length - 6) := by
      rw [hbase, hd8, hnlen]
      congr 1
      omega
    have htail6 : t.drop (t.length - 6) = ".jsonl".data := by
      have h1 : (name.drop 8).drop (t.length - 6) = name.drop (8 + (t.length - 6)) :=
        List.drop_drop (t.length - 6) 8 name
      rw [hd8] at h1
      have h2 : name.drop (u.length) = ".jsonl".data := by
        rw [hue]
        exact List.drop_left u _
      have h3 : 8 + (t.length - 6) = u.length := by omega
      rw [h3, h2] at h1
      exact h1
    have htd : t = base ++ ".jsonl".data := by
      rw [hbt, ← htail6]
      exact (List.take_append_drop _ t).symm
    have hdb : dropBytes base 20 = B := by
      have h2 : utf8Len (A ++ ['-']) = 20 := by
        rw [utf8Len_append, hA19]
        decide
      have h3 : base = (A ++ ['-']) ++ B := by
        rw [hbAB]
        simp
      rw [h3, ← h2]
      exact dropBytes_append _ _
    rw [hdb] at hid
    refine ⟨A, B, ?_, hA19, hid, ?_⟩
    · rw [hts, htd, hbAB]
      simp [List.append_assoc]
    · rw [← hid]
      rw [hdb] at hid0
      simpa [List.isEmpty_iff] using hid0
  · rintro ⟨stamp, rest, rfl, hstamp, hid, hne⟩
    have hrest : rest ≠ [] := by
      intro h
      rw [h] at hid
      exact hne (hid.symm ▸ rfl)
    have hsw : list_starts_with (("rollout-".data) ++ (stamp ++ (['-'] ++ (rest ++ (".jsonl".data)))))
        ("rollout-".data) = true :=
      (list_starts_with_iff _ _).mpr ⟨_, rfl⟩
    have hew : list_ends_with (("rollout-".data) ++ (stamp ++ (['-'] ++ (rest ++ (".jsonl".data)))))
        (".jsonl".data) = true := by
      refine (list_ends_with_iff _ _).mpr ⟨("rollout-".data) ++ (stamp ++ (['-'] ++ rest)), ?_⟩
      simp [List.append_assoc]
    rw [parse_rollout_session_id, hsw, hew]
    simp only [Bool.not_true, Bool.or_self, Bool.false_eq_true, if_false]
    have hd8 : (("rollout-".data) ++ (stamp ++ (['-'] ++ (rest ++ (".jsonl".data))))).drop 8
        = stamp ++ (['-'] ++ (rest ++ (".jsonl".data))) := by
      rw [← rollout_lead_length, List.drop_left]
    have hnlen : (("rollout-".data) ++ (stamp ++ (['-'] ++ (rest ++ (".jsonl".data))))).length
        = 8 + (stamp.length + (1 + (rest.length + 6))) := by
      simp [List.length_append]
      omega
    have hbase : ((("rollout-".data) ++ (stamp ++ (['-'] ++ (rest ++ (".jsonl".data))))).drop 8).take
        ((("rollout-".data) ++ (stamp ++ (['-'] ++ (rest ++ (".jsonl".data))))).length - 14)
        = stamp ++ ('-' :: rest) := by
      rw [hd8, hnlen]
      have harr : stamp ++ (['-'] ++ (rest ++ (".jsonl".data)))
          = (stamp ++ ('-' :: rest)) ++ (".jsonl".data) := by
        simp [List.append_assoc]
      rw [harr]
      have hlen2 : (stamp ++ ('-' :: rest)).length = stamp.length + (1 + rest.length) := by
        simp [Nat.add_comm]
      rw [List.take_left' (by omega)]
    rw [hbase]
    have hstampb : (utf8Bytes stamp).length = 19 := hstamp
    have hblen : ¬(utf8Len (stamp ++ ('-' :: rest)) ≤ 20) := by
      have hr1 : 1 ≤ utf8Len rest := utf8Len_pos rest hrest
      rw [utf8Len_append, utf8Len_cons, hstamp,
        show charUtf8Size '-' = 1 from by decide]
      omega
    rw [if_neg hblen]
    have hbytes : utf8Bytes (stamp ++ ('-' :: rest))
        = utf8Bytes stamp ++ (0x2D :: utf8Bytes rest) := by
      rw [utf8Bytes_append, utf8Bytes_cons,
        show utf8Encode '-' = [0x2D] from by decide]
      rfl
    have h19 : (utf8Bytes (stamp ++ ('-' :: rest))).get? 19 = some 0x2D := by
      have hdp : (utf8Bytes (stamp ++ ('-' :: rest))).drop 19 = 0x2D :: utf8Bytes rest := by
        rw [hbytes]
        exact List.drop_left' hstampb
      have hgd := List.get?_drop (utf8Bytes (stamp ++ ('-' :: rest))) 19 0
      rw [hdp] at hgd
      simpa using hgd.symm
    rw [if_neg (not_not_intro h19)]
    have hd20 : dropBytes (stamp ++ ('-' :: rest)) 20 = rest := by
      have h2 : utf8Len (stamp ++ ['-']) = 20 := by
        rw [utf8Len_append, hstamp]
        decide
      have h3 : stamp ++ ('-' :: rest) = (stamp ++ ['-']) ++ rest := by
        simp
      rw [h3, ← h2]
      exact dropBytes_append _ _
    rw [hd20, hid]
    rw [if_neg (by simpa [List.isEmpty_iff] using hne)]

/-- Claim C6 (amended): the native-archive scan indexes a file name under
id exactly when the name is `rollout-<stamp>-<rest>.jsonl` where the stamp
is any run of characters occupying exactly 19 UTF-8 bytes (the digit
pattern `YYYY-MM-DDTHH-MM-SS` is not validated), and the id is the
Unicode-whitespace-trimmed `<rest>`, required non-empty. -/
theorem scan_rollout_index_spec (names : List (List Char)) (name id : List Char) :
    (name ∈ (lookupKey (scan_codex_rollouts names) id).getD [] ↔
      name ∈ names ∧ parse_rollout_session_id name = some id) ∧
    (parse_rollout_session_id name = some id ↔
      ∃ stamp rest, name = ("rollout-".data) ++ (stamp ++ (['-'] ++ (rest ++ (".jsonl".data)))) ∧
        utf8Len stamp = 19 ∧ rust_trim_chars rest = id ∧ id ≠ []) := by
  constructor
  · rw [scan_codex_rollouts, scan_fold_lookup names [] id]
    simp [lookupKey, List.mem_filter]
  · exact parse_rollout_session_id_iff name id

/-- Claim C6 witness: the documented form is indexed — a well-formed
rollout name maps to its thread id, and an extension mismatch is rejected,
via the main theorem. -/
theorem scan_rollout_index_spec_witness :
    parse_rollout_session_id ("rollout-2026-01-02T03-04-05-abc.jsonl".data)
        = some ("abc".data) ∧
    ("rollout-2026-01-02T03-04-05-abc.jsonl".data)
        ∈ (lookupKey (scan_codex_rollouts [("rollout-2026-01-02T03-04-05-abc.jsonl".data),
            ("notes.txt".data)]) ("abc".data)).getD [] := by
  have h1 : parse_rollout_session_id ("rollout-2026-01-02T03-04-05-abc.jsonl".data)
      = some ("abc".data) :=
    (scan_rollout_index_spec [] ("rollout-2026-01-02T03-04-05-abc.jsonl".data)
        ("abc".data)).2.mpr
      ⟨("2026-01-02T03-04-05".data), ("abc".data), by decide, by decide, by decide, by decide⟩
  refine ⟨h1, ?_⟩
  exact (scan_rollout_index_spec [("rollout-2026-01-02T03-04-05-abc.jsonl".data),
      ("notes.txt".data)] ("rollout-2026-01-02T03-04-05-abc.jsonl".data)
      ("abc".data)).1.mpr ⟨by simp, h1⟩

/-- Claim C6 counterexample: a name whose 19-character stamp is
`XXXXXXXXXXXXXXXXXXX` — not of the `YYYY-MM-DDTHH-MM-SS` digit pattern —
is nevertheless indexed (parsed to id `abc`), so "names not of this form
are never indexed" fails as stated. -/
theorem parse_rollout_session_id_cex :
    parse_rollout_session_id ("rollout-XXXXXXXXXXXXXXXXXXX-abc.jsonl".data)
        = some ("abc".data) ∧
    claimed_rollout_stamp ((("rollout-XXXXXXXXXXXXXXXXXXX-abc.jsonl".data).drop 8).take 19)
        = false := by
  constructor <;> decide

end CodexWarp
